import Mathlib

/-!
Verification of the secret-sharing ("Send") core of vaultwarden:
the password-hashing primitives in `src/crypto.rs` and the record
lifecycle in `src/db/models/send.rs`, shallowly embedded in Lean.

Byte strings are `List Nat`, machine integers are `Nat`/`Int` with
explicit casts where the source casts, fallible operations return
`Option`/`Except`, and panics (`expect`/`unwrap` on zero cost
parameters) are modelled as `none`.  The external key-derivation
libraries (`ring::pbkdf2`, `rust_argon2`) are abstracted as a `Kdf`
record of deterministic functions together with their documented
output-length guarantees; the dispatch logic around them is translated
verbatim from the source.
-/

namespace Vaultwarden

/-- Argon2 configuration as built by `get_argon2_config` in
`src/crypto.rs` (variant `Argon2id` and version 0x13 are fixed by that
function; we record the varying cost fields and the hash length). -/
structure Argon2Config where
  memCost : Nat
  timeCost : Nat
  lanes : Nat
  hashLength : Nat
  deriving DecidableEq

/-- Abstraction of the two key-derivation primitives called by
`src/crypto.rs`.  `pbkdf2Derive iterations salt secret outLen` models
`ring::pbkdf2::derive` filling a caller-supplied buffer of `outLen`
bytes (ring's `verify` derives `previous.len()` bytes and compares in
constant time, so it is `decide (pbkdf2Derive i salt secret prev.length = prev)`).
`argon2Hash secret salt cfg` models `rust_argon2::hash_raw`
(`verify_raw` recomputes the hash under the same config and compares).
The two length fields record the libraries' output-size guarantees. -/
structure Kdf where
  pbkdf2Derive : Nat → List Nat → List Nat → Nat → List Nat
  argon2Hash : List Nat → List Nat → Argon2Config → List Nat
  pbkdf2_len : ∀ i s p n, (pbkdf2Derive i s p n).length = n
  argon2_len : ∀ s t c, (argon2Hash s t c).length = c.hashLength

/-- `OUTPUT_LEN` from `src/crypto.rs`: `digest::SHA256_OUTPUT_LEN`. -/
def OUTPUT_LEN : Nat := 32

/-- `get_argon2_config` from `src/crypto.rs`. -/
def get_argon2_config (iterations memory parallelism : Nat) : Argon2Config :=
  { memCost := memory, timeCost := iterations, lanes := parallelism,
    hashLength := OUTPUT_LEN }

/-- `hash_password` from `src/crypto.rs`.  `none` models the
`expect` panics on a zero cost parameter; the `(memory, parallelism) == (0, 0)`
sentinel selects the legacy PBKDF2 path, anything else the Argon2 path. -/
def hash_password (kdf : Kdf) (secret salt : List Nat)
    (iterations memory parallelism : Nat) : Option (List Nat) :=
  if iterations = 0 then none
  else if memory = 0 ∧ parallelism = 0 then
    some (kdf.pbkdf2Derive iterations salt secret OUTPUT_LEN)
  else if memory = 0 ∨ parallelism = 0 then none
  else some (kdf.argon2Hash secret salt (get_argon2_config iterations memory parallelism))

/-- `verify_password_hash` from `src/crypto.rs`, with ring's
`pbkdf2::verify` (derive `previous.len()` bytes, constant-time compare)
and rust_argon2's `verify_raw` (recompute, constant-time compare)
expanded to their documented semantics over the abstract `Kdf`. -/
def verify_password_hash (kdf : Kdf) (secret salt previous : List Nat)
    (iterations memory parallelism : Nat) : Option Bool :=
  if iterations = 0 then none
  else if memory = 0 ∧ parallelism = 0 then
    some (decide (kdf.pbkdf2Derive iterations salt secret previous.length = previous))
  else if memory = 0 ∨ parallelism = 0 then none
  else some (decide
    (kdf.argon2Hash secret salt (get_argon2_config iterations memory parallelism) = previous))

/-- Trivial concrete `Kdf` instance, used to instantiate universally
quantified theorems at a concrete point. -/
def unitKdf : Kdf where
  pbkdf2Derive := fun _ _ _ n => List.replicate n 0
  argon2Hash := fun _ _ c => List.replicate c.hashLength 0
  pbkdf2_len := by intro i s p n; simp
  argon2_len := by intro s t c; simp

/-- C1: for `iterations > 0` and the `(memory, parallelism) = (0, 0)`
sentinel, `hash_password` takes the legacy PBKDF2 path, its output has
32 bytes, and `verify_password_hash` on that output returns `true`;
for `iterations, memory, parallelism` all positive it takes the modern
Argon2 path and `verify_password_hash` with the same parameters on its
output returns `true`.  The branch taken is exactly the one selected by
the sentinel in both functions. -/
theorem hash_verify_round_trip (kdf : Kdf) (secret salt : List Nat)
    (iterations memory parallelism : Nat) (hiter : 0 < iterations) :
    (hash_password kdf secret salt iterations 0 0 =
        some (kdf.pbkdf2Derive iterations salt secret OUTPUT_LEN) ∧
      ∀ h, hash_password kdf secret salt iterations 0 0 = some h →
        h.length = OUTPUT_LEN ∧
          verify_password_hash kdf secret salt h iterations 0 0 = some true) ∧
    (0 < memory → 0 < parallelism →
      hash_password kdf secret salt iterations memory parallelism =
          some (kdf.argon2Hash secret salt
            (get_argon2_config iterations memory parallelism)) ∧
        ∀ h, hash_password kdf secret salt iterations memory parallelism = some h →
          verify_password_hash kdf secret salt h iterations memory parallelism =
            some true) := by
  have hi : iterations ≠ 0 := Nat.pos_iff_ne_zero.mp hiter
  constructor
  · constructor
    · simp [hash_password, hi]
    · intro h hh
      simp [hash_password, hi] at hh
      have hlen : h.length = OUTPUT_LEN := by
        rw [← hh]; exact kdf.pbkdf2_len iterations salt secret OUTPUT_LEN
      refine ⟨hlen, ?_⟩
      simp [verify_password_hash, hi, hlen, ← hh,
        kdf.pbkdf2_len iterations salt secret OUTPUT_LEN]
  · intro hm hp
    have hm' : memory ≠ 0 := Nat.pos_iff_ne_zero.mp hm
    have hp' : parallelism ≠ 0 := Nat.pos_iff_ne_zero.mp hp
    constructor
    · simp [hash_password, hi, hm', hp']
    · intro h hh
      simp [hash_password, hi, hm', hp'] at hh
      simp [verify_password_hash, hi, hm', hp', ← hh]

/-- Witness for C1 at a concrete point: iterations 1, legacy sentinel
and modern parameters (3, 4), with the trivial `unitKdf`. -/
theorem hash_verify_round_trip_witness :
    0 < 1 ∧
      verify_password_hash unitKdf [1] [2] (List.replicate 32 0) 1 0 0 = some true ∧
      verify_password_hash unitKdf [1] [2] (List.replicate 32 0) 1 3 4 = some true := by
  obtain ⟨hleg, hmod⟩ := hash_verify_round_trip unitKdf [1] [2] 1 3 4 (by decide)
  obtain ⟨-, hmod2⟩ := hmod (by decide) (by decide)
  exact ⟨by decide, (hleg.2 _ (by decide)).2, hmod2 _ (by decide)⟩

/-- `crypto::get_random_bytes::<N>()` from `src/crypto.rs`: fill an
`n`-byte array from the system CSPRNG, modelled by an `entropy` oracle. -/
def get_random_bytes (entropy : Nat → Nat) (n : Nat) : List Nat :=
  (List.range n).map entropy

/-- The `Send` row from `src/db/models/send.rs`.  `NaiveDateTime` is
modelled as `Int` (an ordered time point), ids as `String`. -/
structure Send where
  uuid : String
  user_uuid : Option String
  organization_uuid : Option String
  name : String
  notes : Option String
  atype : Int
  data : String
  akey : String
  password_hash : Option (List Nat)
  password_salt : Option (List Nat)
  password_iter : Option Int
  password_mem : Option Int
  password_para : Option Int
  max_access_count : Option Int
  access_count : Int
  creation_date : Int
  revision_date : Int
  expiration_date : Option Int
  deletion_date : Int
  disabled : Bool
  hide_email : Option Bool
  deriving DecidableEq

/-- `SendType` from `src/db/models/send.rs`: `Text = 0`, `File = 1`. -/
def SendTypeText : Int := 0

/-- `SendType::File as i32`. -/
def SendTypeFile : Int := 1

/-- `Send::new` from `src/db/models/send.rs`; `uuid` stands for the
generated `get_uuid()` value and `now` for `Utc::now().naive_utc()`. -/
def Send.new (uuid : String) (now : Int) (atype : Int)
    (name data akey : String) (deletion_date : Int) : Send where
  uuid := uuid
  user_uuid := none
  organization_uuid := none
  name := name
  notes := none
  atype := atype
  data := data
  akey := akey
  password_hash := none
  password_salt := none
  password_iter := none
  password_mem := none
  password_para := none
  max_access_count := none
  access_count := 0
  creation_date := now
  revision_date := now
  expiration_date := none
  deletion_date := deletion_date
  disabled := false
  hide_email := none

/-- `PASSWORD_ITER` from `Send::set_password`. -/
def PASSWORD_ITER : Int := 2

/-- `PASSWORD_MEM` from `Send::set_password`. -/
def PASSWORD_MEM : Int := 1048576

/-- `PASSWORD_PARA` from `Send::set_password`. -/
def PASSWORD_PARA : Int := 8

/-- The Rust cast `i as u32` for `i : i32` (two's-complement wrap),
used on the stored cost fields in `set_password`/`check_password`. -/
def i32AsU32 (i : Int) : Nat := (i % (2 ^ 32 : Int)).toNat

/-- `Send::set_password` from `src/db/models/send.rs`.  The fresh
64-byte salt comes from `crypto::get_random_bytes::<64>()`, modelled by
the `entropy` oracle.  `password_hash` receives the (always-`some` at
these fixed parameters) result of `hash_password`. -/
def Send.set_password (kdf : Kdf) (entropy : Nat → Nat) (s : Send)
    (password : Option (List Nat)) : Send :=
  match password with
  | some pw =>
    let salt := get_random_bytes entropy 64
    let hash := hash_password kdf pw salt (i32AsU32 PASSWORD_ITER)
      (i32AsU32 PASSWORD_MEM) (i32AsU32 PASSWORD_PARA)
    { s with password_iter := some PASSWORD_ITER,
             password_mem := some PASSWORD_MEM,
             password_para := some PASSWORD_PARA,
             password_salt := some salt,
             password_hash := hash }
  | none =>
    { s with password_iter := none,
             password_mem := none,
             password_para := none,
             password_salt := none,
             password_hash := none }

/-- `Send::check_password` from `src/db/models/send.rs`.  `some b`
models the source's returned `b`; `none` models a panic inside
`verify_password_hash` (reachable only with a zero stored cost field). -/
def Send.check_password (kdf : Kdf) (s : Send) (password : List Nat) : Option Bool :=
  match s.password_hash, s.password_salt, s.password_iter, s.password_mem, s.password_para with
  | some hash, some salt, some iter, some mem, some para =>
    verify_password_hash kdf password salt hash
      (i32AsU32 iter) (i32AsU32 mem) (i32AsU32 para)
  | _, _, _, _, _ => some false

/-- C2: `set_password (some p)` populates all five password fields,
with a fresh 64-byte salt and the fixed modern cost parameters
(iterations 2, memory 1048576, parallelism 8), the hash being the
Argon2 hash at those parameters; `set_password none` clears all five.
Both cases of the optional argument are covered, so no call leaves the
fields partially populated. -/
theorem set_password_all_or_nothing (kdf : Kdf) (entropy : Nat → Nat)
    (s : Send) (pw : List Nat) :
    ((s.set_password kdf entropy (some pw)).password_iter = some 2 ∧
      (s.set_password kdf entropy (some pw)).password_mem = some 1048576 ∧
      (s.set_password kdf entropy (some pw)).password_para = some 8 ∧
      (s.set_password kdf entropy (some pw)).password_salt =
        some (get_random_bytes entropy 64) ∧
      (get_random_bytes entropy 64).length = 64 ∧
      (s.set_password kdf entropy (some pw)).password_hash =
        some (kdf.argon2Hash pw (get_random_bytes entropy 64)
          (get_argon2_config 2 1048576 8))) ∧
    ((s.set_password kdf entropy none).password_iter = none ∧
      (s.set_password kdf entropy none).password_mem = none ∧
      (s.set_password kdf entropy none).password_para = none ∧
      (s.set_password kdf entropy none).password_salt = none ∧
      (s.set_password kdf entropy none).password_hash = none) := by
  refine ⟨⟨rfl, rfl, rfl, rfl, by simp [get_random_bytes], ?_⟩, rfl, rfl, rfl, rfl, rfl⟩
  show hash_password kdf pw (get_random_bytes entropy 64) (i32AsU32 PASSWORD_ITER)
    (i32AsU32 PASSWORD_MEM) (i32AsU32 PASSWORD_PARA) = _
  rfl

/-- Helper: `check_password` falls through to the catch-all `false` arm
as soon as any stored password field is `none`. -/
theorem check_password_missing_field (kdf : Kdf) (s : Send) (cand : List Nat)
    (h : s.password_hash = none ∨ s.password_salt = none ∨ s.password_iter = none ∨
      s.password_mem = none ∨ s.password_para = none) :
    s.check_password kdf cand = some false := by
  obtain ⟨_, _, _, _, _, _, _, _, ph, ps, pit, pme, ppa, _, _, _, _, _, _, _, _⟩ := s
  cases ph <;> cases ps <;> cases pit <;> cases pme <;> cases ppa <;>
    simp_all [Send.check_password]

/-- Helper: `hash_password` at the fixed `set_password` cost parameters
is the Argon2 branch. -/
theorem hash_password_at_set_params (kdf : Kdf) (pw salt : List Nat) :
    hash_password kdf pw salt (i32AsU32 PASSWORD_ITER) (i32AsU32 PASSWORD_MEM)
      (i32AsU32 PASSWORD_PARA) =
    some (kdf.argon2Hash pw salt (get_argon2_config 2 1048576 8)) := rfl

/-- Helper: `verify_password_hash` at the fixed `set_password` cost
parameters recomputes the Argon2 hash and compares. -/
theorem verify_password_hash_at_set_params (kdf : Kdf) (pw salt prev : List Nat) :
    verify_password_hash kdf pw salt prev 2 1048576 8 =
    some (decide (kdf.argon2Hash pw salt (get_argon2_config 2 1048576 8) = prev)) := rfl

/-- C3: `check_password` returns `false` whenever any stored password
field is absent — in particular after `set_password none` every
candidate is rejected; with all fields present it delegates to
`verify_password_hash` at the stored cost parameters, so after
`set_password (some p)` the password `p` verifies and (provided the
Argon2 hash is collision-free at the stored salt and configuration)
any `p' ≠ p` is rejected. -/
theorem check_password_spec (kdf : Kdf) (entropy : Nat → Nat) (s : Send)
    (p p' cand : List Nat)
    (hinj : ∀ a b : List Nat,
      kdf.argon2Hash a (get_random_bytes entropy 64) (get_argon2_config 2 1048576 8) =
        kdf.argon2Hash b (get_random_bytes entropy 64) (get_argon2_config 2 1048576 8) →
      a = b)
    (hne : p' ≠ p) :
    ((s.password_hash = none ∨ s.password_salt = none ∨ s.password_iter = none ∨
        s.password_mem = none ∨ s.password_para = none) →
      s.check_password kdf cand = some false) ∧
    (s.set_password kdf entropy none).check_password kdf cand = some false ∧
    (s.set_password kdf entropy (some p)).check_password kdf p = some true ∧
    (s.set_password kdf entropy (some p)).check_password kdf p' = some false := by
  refine ⟨check_password_missing_field kdf s cand, rfl, ?_, ?_⟩
  · have hdeleg : (s.set_password kdf entropy (some p)).check_password kdf p =
        verify_password_hash kdf p (get_random_bytes entropy 64)
          (kdf.argon2Hash p (get_random_bytes entropy 64) (get_argon2_config 2 1048576 8))
          2 1048576 8 := rfl
    rw [hdeleg, verify_password_hash_at_set_params]
    simp
  · have hdeleg : (s.set_password kdf entropy (some p)).check_password kdf p' =
        verify_password_hash kdf p' (get_random_bytes entropy 64)
          (kdf.argon2Hash p (get_random_bytes entropy 64) (get_argon2_config 2 1048576 8))
          2 1048576 8 := rfl
    rw [hdeleg, verify_password_hash_at_set_params]
    have hx : kdf.argon2Hash p' (get_random_bytes entropy 64) (get_argon2_config 2 1048576 8) ≠
        kdf.argon2Hash p (get_random_bytes entropy 64) (get_argon2_config 2 1048576 8) :=
      fun hEq => hne (hinj p' p hEq)
    simp [hx]

/-- A concrete `Kdf` whose Argon2 output determines the secret, used to
instantiate collision-freeness hypotheses at a concrete point. -/
def injKdf : Kdf where
  pbkdf2Derive := fun _ _ _ n => List.replicate n 0
  argon2Hash := fun s _ c =>
    if c.hashLength = 0 then []
    else Encodable.encode s :: List.replicate (c.hashLength - 1) 0
  pbkdf2_len := by intro i s p n; simp
  argon2_len := by
    intro s t c
    by_cases h : c.hashLength = 0 <;> simp [h]
    omega

/-- Helper: `injKdf`'s Argon2 hash is injective in the secret at any
salt and at the fixed `set_password` configuration. -/
theorem injKdf_argon2_injective (salt a b : List Nat)
    (h : injKdf.argon2Hash a salt (get_argon2_config 2 1048576 8) =
      injKdf.argon2Hash b salt (get_argon2_config 2 1048576 8)) : a = b := by
  simp [injKdf, get_argon2_config, OUTPUT_LEN] at h
  exact h

/-- Witness for C3 at a concrete point: a fresh record, password `[1]`,
wrong candidate `[0]`, the `injKdf` instance. -/
theorem check_password_spec_witness :
    ([0] : List Nat) ≠ [1] ∧
    (Send.set_password injKdf (fun _ => 0)
        (Send.new "u" 0 0 "n" "d" "k" 10) (some [1])).check_password injKdf [1] =
      some true ∧
    (Send.set_password injKdf (fun _ => 0)
        (Send.new "u" 0 0 "n" "d" "k" 10) (some [1])).check_password injKdf [0] =
      some false := by
  have h := check_password_spec injKdf (fun _ => 0) (Send.new "u" 0 0 "n" "d" "k" 10)
    [1] [0] [2] (fun a b hab => injKdf_argon2_injective _ a b hab) (by decide)
  exact ⟨by decide, h.2.2.1, h.2.2.2⟩

/-- `Send::update_users_revision` from `src/db/models/send.rs`: notify
the owning user's sync revision (organization owners are not
implemented) and return the notified user ids. -/
def Send.update_users_revision (s : Send) : List String :=
  match s.user_uuid with
  | some u => [u]
  | none => []

/-- Observable events of the persistence operations in
`src/db/models/send.rs`, listed in the order they are performed. -/
inductive SendEvent where
  | notifyRevision (users : List String)
  | setRevisionDate (now : Int)
  | replaceAttempt (uuid : String)
  | updateFallback (uuid : String)
  | blobRemoveAttempt (uuid : String)
  | metadataDelete (uuid : String)
  deriving DecidableEq

/-- Event classifier: the sync-revision notification. -/
def isNotify : SendEvent → Bool
  | .notifyRevision _ => true
  | _ => false

/-- Event classifier: stamping `revision_date`. -/
def isSetRevision : SendEvent → Bool
  | .setRevisionDate _ => true
  | _ => false

/-- Event classifier: a persistence write of `save` (replace or the
update fallback). -/
def isPersistWrite : SendEvent → Bool
  | .replaceAttempt _ => true
  | .updateFallback _ => true
  | _ => false

/-- Event classifier: the update fallback of `save`. -/
def isUpdateFallback : SendEvent → Bool
  | .updateFallback _ => true
  | _ => false

/-- Event classifier: the blob-removal attempt of `delete`. -/
def isBlobRemove : SendEvent → Bool
  | .blobRemoveAttempt _ => true
  | _ => false

/-- Event classifier: the metadata-row removal of `delete`. -/
def isMetaDelete : SendEvent → Bool
  | .metadataDelete _ => true
  | _ => false

/-- Outcome of the `diesel::replace_into` attempt in `Send::save`
(sqlite/mysql path). -/
inductive ReplaceOutcome where
  | ok
  | foreignKeyViolation
  | otherError
  deriving DecidableEq

/-- Store behaviour for one `save` call: the wall clock and the
outcomes the database returns. -/
structure SaveEnv where
  now : Int
  replaceOutcome : ReplaceOutcome
  updateOk : Bool
  deriving DecidableEq

/-- `Send::save` from `src/db/models/send.rs` (sqlite/mysql path), as a
trace of observable events together with the success flag and the
persisted record: it notifies the owner's revision, stamps
`revision_date = now`, attempts `replace_into`, and exactly on a
foreign-key violation falls back to `diesel::update` keyed by `uuid`;
any other replace error fails the call. -/
def Send.save (env : SaveEnv) (s : Send) : List SendEvent × Bool × Send :=
  let s' := { s with revision_date := env.now }
  let pre := [SendEvent.notifyRevision s.update_users_revision,
              SendEvent.setRevisionDate env.now]
  match env.replaceOutcome with
  | .ok => (pre ++ [.replaceAttempt s.uuid], true, s')
  | .foreignKeyViolation =>
    (pre ++ [.replaceAttempt s.uuid, .updateFallback s.uuid], env.updateOk, s')
  | .otherError => (pre ++ [.replaceAttempt s.uuid], false, s')

/-- The ordering asserted by the spec for `save`: the sync-revision
notification comes after the first persistence write. -/
def notifiedAfterPersist (tr : List SendEvent) : Bool :=
  match tr.findIdx? isPersistWrite, tr.findIdx? isNotify with
  | some i, some j => decide (i < j)
  | _, _ => false

/-- A concrete owned `File`-kind record used to instantiate theorems. -/
def exampleSend : Send :=
  { Send.new "id1" 0 SendTypeFile "n" "d" "k" 10 with user_uuid := some "user1" }

/-- C4 counterexample: on a concrete save both a notification and a
persistence write occur, but the notification comes first — `save`
notifies the owner's sync revision before persisting, not after. -/
theorem save_notify_order_counterexample :
    (Send.save ⟨5, ReplaceOutcome.ok, true⟩ exampleSend).1 =
      [SendEvent.notifyRevision ["user1"], SendEvent.setRevisionDate 5,
        SendEvent.replaceAttempt "id1"] ∧
    notifiedAfterPersist (Send.save ⟨5, ReplaceOutcome.ok, true⟩ exampleSend).1 = false := by
  decide

/-- C4 (amended): `save` stamps `revision_date = now` before persisting
and persists the stamped record; the replace attempt is made in every
case and the in-place update fallback keyed by the record's id happens
exactly on a foreign-key violation; the call succeeds on a clean
replace, succeeds on a foreign-key violation iff the fallback update
succeeds, and fails on any other replace error; the owner's sync
revision is notified at the start of the call, before (not after) the
persistence write. -/
theorem save_spec (env : SaveEnv) (s : Send) :
    (Send.save env s).2.2 = { s with revision_date := env.now } ∧
    (Send.save env s).1.findIdx? isNotify = some 0 ∧
    (Send.save env s).1.findIdx? isSetRevision = some 1 ∧
    (Send.save env s).1.findIdx? isPersistWrite = some 2 ∧
    ((Send.save env s).1.any isUpdateFallback =
      decide (env.replaceOutcome = ReplaceOutcome.foreignKeyViolation)) ∧
    ((Send.save env s).2.1 = true ↔
      env.replaceOutcome = ReplaceOutcome.ok ∨
        (env.replaceOutcome = ReplaceOutcome.foreignKeyViolation ∧ env.updateOk = true)) := by
  obtain ⟨now, ro, uo⟩ := env
  cases ro <;> cases uo <;>
    simp [Send.save, List.findIdx?, isNotify, isSetRevision, isPersistWrite,
      isUpdateFallback, List.any]

/-- Witness for C4's amended theorem at a concrete foreign-key-violation
save. -/
theorem save_spec_witness :
    (Send.save ⟨7, ReplaceOutcome.foreignKeyViolation, true⟩ exampleSend).2.1 = true ∧
    (Send.save ⟨7, ReplaceOutcome.foreignKeyViolation, true⟩
        exampleSend).1.any isUpdateFallback = true := by
  have h := save_spec ⟨7, ReplaceOutcome.foreignKeyViolation, true⟩ exampleSend
  exact ⟨h.2.2.2.2.2.mpr (Or.inr ⟨rfl, rfl⟩), by rw [h.2.2.2.2.1]; decide⟩

/-- Store behaviour for one `delete` call: whether the blob-store
operator can be obtained, whether `remove_all` succeeds (its outcome is
swallowed by `.ok()`), and whether the metadata-row delete succeeds. -/
structure DeleteEnv where
  operatorOk : Bool
  blobRemoveOk : Bool
  dbDeleteOk : Bool
  deriving DecidableEq

/-- `Send::delete` from `src/db/models/send.rs`: notify the owner's
revision; for `File`-kind records obtain the blob-store operator
(failure propagates through `?`) and attempt `remove_all`, whose own
failure is swallowed by `.ok()`; finally delete the metadata row, whose
outcome is the call's result. -/
def Send.delete (env : DeleteEnv) (s : Send) : List SendEvent × Bool :=
  let pre := [SendEvent.notifyRevision s.update_users_revision]
  if s.atype = SendTypeFile then
    if env.operatorOk then
      (pre ++ [.blobRemoveAttempt s.uuid, .metadataDelete s.uuid], env.dbDeleteOk)
    else (pre, false)
  else (pre ++ [.metadataDelete s.uuid], env.dbDeleteOk)

/-- The ordering asserted by the spec for `delete`: the sync-revision
notification comes after the metadata-row removal. -/
def notifiedAfterMetaDelete (tr : List SendEvent) : Bool :=
  match tr.findIdx? isMetaDelete, tr.findIdx? isNotify with
  | some i, some j => decide (i < j)
  | _, _ => false

/-- C5 counterexample: on a concrete `File`-record delete both the
metadata removal and the notification occur, but the notification comes
first (the trace is notify, blob removal, metadata removal) — `delete`
does not notify after removing the metadata row. -/
theorem delete_notify_order_counterexample :
    (Send.delete ⟨true, true, true⟩ exampleSend).1 =
      [SendEvent.notifyRevision ["user1"], SendEvent.blobRemoveAttempt "id1",
        SendEvent.metadataDelete "id1"] ∧
    notifiedAfterMetaDelete (Send.delete ⟨true, true, true⟩ exampleSend).1 = false := by
  decide

/-- C5 (amended): `delete` notifies the owner's sync revision first,
not last; then, for `File`-kind records only, it attempts blob removal
under the record's id before the metadata removal, and the failure of
the removal itself is swallowed (the result does not depend on it) —
but a failure to obtain the blob-store operator propagates, failing the
call before the metadata row is touched; otherwise the metadata-row
outcome decides the result.  `Text`-kind records get no blob-removal
attempt. -/
theorem delete_spec (env : DeleteEnv) (s : Send) :
    (Send.delete env s).1.findIdx? isNotify = some 0 ∧
    (∀ b b', (Send.delete ⟨env.operatorOk, b, env.dbDeleteOk⟩ s) =
      (Send.delete ⟨env.operatorOk, b', env.dbDeleteOk⟩ s)) ∧
    (s.atype = SendTypeFile → env.operatorOk = true →
      ((Send.delete env s).1.findIdx? isBlobRemove = some 1 ∧
        (Send.delete env s).1.findIdx? isMetaDelete = some 2 ∧
        (Send.delete env s).2 = env.dbDeleteOk)) ∧
    (s.atype = SendTypeFile → env.operatorOk = false →
      ((Send.delete env s).1.findIdx? isMetaDelete = none ∧
        (Send.delete env s).2 = false)) ∧
    (s.atype ≠ SendTypeFile →
      ((Send.delete env s).1.findIdx? isBlobRemove = none ∧
        (Send.delete env s).1.findIdx? isMetaDelete = some 1 ∧
        (Send.delete env s).2 = env.dbDeleteOk)) := by
  obtain ⟨oo, bo, dbo⟩ := env
  refine ⟨?_, ?_, ?_, ?_, ?_⟩ <;>
    first
    | (intro hty hop
       simp_all [Send.delete, List.findIdx?, isNotify, isBlobRemove, isMetaDelete])
    | (intro hty
       simp_all [Send.delete, List.findIdx?, isNotify, isBlobRemove, isMetaDelete])
    | (by_cases hty : s.atype = SendTypeFile <;> by_cases hop : oo = true <;>
       simp_all [Send.delete, List.findIdx?, isNotify, isBlobRemove, isMetaDelete])

/-- Witness for C5's amended theorem on a concrete `File` record with
all store operations succeeding. -/
theorem delete_spec_witness :
    (Send.delete ⟨true, true, true⟩ exampleSend).1.findIdx? isBlobRemove = some 1 ∧
    (Send.delete ⟨true, true, true⟩ exampleSend).2 = true := by
  have h := (delete_spec ⟨true, true, true⟩ exampleSend).2.2.1 (by decide) rfl
  exact ⟨h.1, h.2.2⟩

/-- `Send::find_by_past_deletion_date` from `src/db/models/send.rs`:
the records whose `deletion_date` is strictly earlier than `now`. -/
def find_by_past_deletion_date (now : Int) (store : List Send) : List Send :=
  store.filter (fun s => s.deletion_date < now)

/-- `Send::purge` from `src/db/models/send.rs`: delete every record
past its deletion date, the per-record result being discarded by
`.ok()` so the sweep continues regardless; the per-record store
behaviour is `env`.  Returns the attempted deletions in order, paired
with their outcomes. -/
def purge (env : Send → DeleteEnv) (now : Int) (store : List Send) :
    List (Send × (List SendEvent × Bool)) :=
  (find_by_past_deletion_date now store).map (fun s => (s, s.delete (env s)))

/-- Helper: mapping `Prod.fst` over a graph-like pairing recovers the
original list. -/
theorem map_fst_pair {α β : Type} (f : α → β) (l : List α) :
    (l.map (fun a => (a, f a))).map Prod.fst = l := by
  induction l with
  | nil => rfl
  | cons a t ih => simp [ih]

/-- Helper: the records attempted by `purge` are exactly the selection
of `find_by_past_deletion_date`. -/
theorem purge_map_fst (env : Send → DeleteEnv) (now : Int) (store : List Send) :
    (purge env now store).map Prod.fst = find_by_past_deletion_date now store := by
  simp only [purge]
  exact map_fst_pair _ _

/-- C6: `purge` attempts to delete exactly the records whose
`deletion_date` is strictly earlier than `now` (a record dated `now` or
later is untouched), in store order; and the list of records attempted
does not depend on the per-record deletion outcomes, so one record's
failure never suppresses the attempt on another. -/
theorem purge_spec (env env' : Send → DeleteEnv) (now : Int) (store : List Send) :
    (purge env now store).map Prod.fst =
      store.filter (fun s => decide (s.deletion_date < now)) ∧
    (∀ s, s ∈ store →
      (s.deletion_date < now ↔ s ∈ (purge env now store).map Prod.fst)) ∧
    (purge env now store).map Prod.fst = (purge env' now store).map Prod.fst := by
  refine ⟨?_, ?_, ?_⟩
  · rw [purge_map_fst]; rfl
  · intro s hs
    rw [purge_map_fst]
    simp [find_by_past_deletion_date, List.mem_filter, hs]
  · rw [purge_map_fst, purge_map_fst]

/-- Witness for C6 on the three-record store {yesterday, now, tomorrow}
(deletion dates -1, 0, 1 with now = 0): exactly the yesterday record is
attempted. -/
theorem purge_spec_witness :
    (purge (fun _ => ⟨true, true, true⟩) 0
        [Send.new "y" 0 0 "n" "d" "k" (-1), Send.new "t" 0 0 "n" "d" "k" 0,
          Send.new "m" 0 0 "n" "d" "k" 1]).map Prod.fst =
      [Send.new "y" 0 0 "n" "d" "k" (-1)] := by
  refine (purge_spec (fun _ => ⟨true, true, true⟩) (fun _ => ⟨true, true, true⟩) 0
    [Send.new "y" 0 0 "n" "d" "k" (-1), Send.new "t" 0 0 "n" "d" "k" 0,
      Send.new "m" 0 0 "n" "d" "k" 1]).1.trans ?_
  decide

/-- Modelled from the spec: `util::NumberOrString` (declared in the
repository's `util.rs`, which is not under `src/`): a declared size
arrives "expressed as either a string or a number". -/
inductive NumberOrString where
  | num (n : Int)
  | str (s : String)
  deriving DecidableEq

/-- The i64 minimum. -/
def I64_MIN : Int := -(2 ^ 63)

/-- The i64 maximum. -/
def I64_MAX : Int := 2 ^ 63 - 1

/-- Whether an integer is representable as an i64. -/
def inI64 (n : Int) : Bool := decide (I64_MIN ≤ n) && decide (n ≤ I64_MAX)

/-- Decimal-digit accumulator for the string-to-integer coercion. -/
def parseDigits (acc : Nat) : List Char → Option Nat
  | [] => some acc
  | c :: cs => if c.isDigit then parseDigits (acc * 10 + (c.toNat - 48)) cs else none

/-- An optionally sign-prefixed decimal integer, or `none`. -/
def parseIntString (s : String) : Option Int :=
  match s.toList with
  | [] => none
  | '-' :: [] => none
  | '-' :: c :: cs => (parseDigits 0 (c :: cs)).map (fun n => -(n : Int))
  | cs => (parseDigits 0 cs).map (fun n => (n : Int))

/-- Modelled from the spec: `NumberOrString::into_i64` from the
repository's `util.rs` (not under `src/`): a number is returned as-is
and a string "must be coerced to an integer", failing on non-numeric or
out-of-i64-range input. -/
def NumberOrString.into_i64 : NumberOrString → Except Unit Int
  | .num n => .ok n
  | .str s =>
    match parseIntString s with
    | some n => if inI64 n then .ok n else .error ()
    | none => .error ()

/-- The `FileData` view deserialized inside `Send::size_by_user`: just
its declared `size` field (JSON key `size` or `Size`). -/
structure FileData where
  size : NumberOrString
  deriving DecidableEq

/-- `i64::checked_add`. -/
def i64CheckedAdd (a b : Int) : Option Int :=
  if inI64 (a + b) then some (a + b) else none

/-- The summation loop of `Send::size_by_user`, carrying the running
`total`. -/
def size_by_user_go (parse : String → Except Unit FileData) (total : Int) :
    List Send → Option Int
  | [] => some total
  | send :: rest =>
    if send.atype = SendTypeFile then
      match (parse send.data).bind (fun d => d.size.into_i64) with
      | .ok size =>
        match i64CheckedAdd total size with
        | some t => size_by_user_go parse t rest
        | none => none
      | .error _ => size_by_user_go parse total rest
    else size_by_user_go parse total rest

/-- `Send::size_by_user` from `src/db/models/send.rs`, over an explicit
list of the owner's records; `parse` abstracts
`serde_json::from_str::<FileData>` on the record's `data` payload.  A
record that is not `File`-kind, fails to parse, or whose size cannot be
coerced contributes nothing; `total.checked_add(size)?` aborts the
whole call with `none` on i64 overflow. -/
def size_by_user (parse : String → Except Unit FileData) (sends : List Send) :
    Option Int :=
  size_by_user_go parse 0 sends

/-- Helper: `into_i64` on a JSON number. -/
theorem into_i64_num (n : Int) : (NumberOrString.num n).into_i64 = .ok n := rfl

/-- Helper: `into_i64` coerces the string "30". -/
theorem into_i64_str30 : (NumberOrString.str "30").into_i64 = .ok 30 := rfl

/-- The successfully coerced declared sizes of the `File`-kind records,
in order. -/
def declaredSizes (parse : String → Except Unit FileData) (sends : List Send) :
    List Int :=
  sends.filterMap (fun send =>
    if send.atype = SendTypeFile then
      match (parse send.data).bind (fun d => d.size.into_i64) with
      | .ok size => some size
      | .error _ => none
    else none)

/-- Overflow-checked running sum. -/
def checkedSum (acc : Int) : List Int → Option Int
  | [] => some acc
  | x :: xs =>
    match i64CheckedAdd acc x with
    | some t => checkedSum t xs
    | none => none

/-- Whether every running partial sum stays in i64 range. -/
def sumsInRange (acc : Int) : List Int → Bool
  | [] => true
  | x :: xs => inI64 (acc + x) && sumsInRange (acc + x) xs

/-- Helper: the summation loop depends only on the coerced sizes. -/
theorem size_by_user_go_eq_checkedSum (parse : String → Except Unit FileData)
    (total : Int) (sends : List Send) :
    size_by_user_go parse total sends = checkedSum total (declaredSizes parse sends) := by
  induction sends generalizing total with
  | nil => rfl
  | cons send rest ih =>
    by_cases hty : send.atype = SendTypeFile
    · cases hp : (parse send.data).bind (fun d => d.size.into_i64) with
      | ok size =>
        cases hadd : i64CheckedAdd total size with
        | some t =>
          simp [size_by_user_go, declaredSizes, checkedSum, hty, hp, hadd, ih]
        | none =>
          simp [size_by_user_go, declaredSizes, checkedSum, hty, hp, hadd]
      | error e =>
        simp [size_by_user_go, declaredSizes, hty, hp, ih]
    · simp [size_by_user_go, declaredSizes, hty, ih]

/-- Helper: the checked sum succeeds with the mathematical sum exactly
when every partial sum stays in i64 range. -/
theorem checkedSum_eq_ite (acc : Int) (l : List Int) :
    checkedSum acc l =
      if sumsInRange acc l then some (acc + l.sum) else none := by
  induction l generalizing acc with
  | nil => simp [checkedSum, sumsInRange]
  | cons x xs ih =>
    by_cases h : inI64 (acc + x)
    · simp [checkedSum, sumsInRange, i64CheckedAdd, h, ih, add_assoc]
    · simp [checkedSum, sumsInRange, i64CheckedAdd, h]

/-- C7: `size_by_user` sums the coerced declared sizes of the owner's
`File`-kind records (number- and string-typed sizes alike), yielding
`none` instead of a wrapped total as soon as the running i64 sum would
overflow and `some` of the mathematical sum otherwise; on declared
sizes 10, 20, "30" it returns 60, and a run whose declared sizes sum
past the i64 range returns `none`. -/
theorem size_by_user_spec (parse : String → Except Unit FileData)
    (sends : List Send) (s1 s2 s3 s4 : Send)
    (h1 : s1.atype = SendTypeFile) (h2 : s2.atype = SendTypeFile)
    (h3 : s3.atype = SendTypeFile) (h4 : s4.atype = SendTypeFile)
    (hp1 : parse s1.data = .ok ⟨.num 10⟩) (hp2 : parse s2.data = .ok ⟨.num 20⟩)
    (hp3 : parse s3.data = .ok ⟨.str "30"⟩) (hp4 : parse s4.data = .ok ⟨.num I64_MAX⟩) :
    (size_by_user parse sends =
      if sumsInRange 0 (declaredSizes parse sends) then
        some (declaredSizes parse sends).sum
      else none) ∧
    size_by_user parse [s1, s2, s3] = some 60 ∧
    size_by_user parse [s4, s1] = none := by
  have key : ∀ l, size_by_user parse l =
      if sumsInRange 0 (declaredSizes parse l) then
        some (declaredSizes parse l).sum
      else none := by
    intro l
    rw [size_by_user, size_by_user_go_eq_checkedSum, checkedSum_eq_ite]
    simp
  refine ⟨key sends, ?_, ?_⟩
  · rw [key]
    have hd : declaredSizes parse [s1, s2, s3] = [10, 20, 30] := by
      simp [declaredSizes, h1, h2, h3, hp1, hp2, hp3, Except.bind,
        into_i64_num, into_i64_str30]
    rw [hd]
    decide
  · rw [key]
    have hd : declaredSizes parse [s4, s1] = [I64_MAX, 10] := by
      simp [declaredSizes, h1, h4, hp1, hp4, Except.bind, into_i64_num]
    rw [hd]
    decide

/-- A concrete parse table standing in for `serde_json` in witnesses:
payload tags map to declared sizes. -/
def parseTable : String → Except Unit FileData := fun d =>
  if d = "d10" then .ok ⟨.num 10⟩
  else if d = "d20" then .ok ⟨.num 20⟩
  else if d = "d30" then .ok ⟨.str "30"⟩
  else if d = "dmax" then .ok ⟨.num I64_MAX⟩
  else .error ()

/-- A `File`-kind record with the given payload tag. -/
def fileSend (tag : String) : Send := Send.new "i" 0 SendTypeFile "n" tag "k" 5

/-- Witness for C7 on the concrete parse table: sizes 10, 20, "30" sum
to 60 and max + 10 overflows to `none`. -/
theorem size_by_user_spec_witness :
    size_by_user parseTable [fileSend "d10", fileSend "d20", fileSend "d30"] =
      some 60 ∧
    size_by_user parseTable [fileSend "dmax", fileSend "d10"] = none := by
  have h := size_by_user_spec parseTable []
    (fileSend "d10") (fileSend "d20") (fileSend "d30") (fileSend "dmax")
    rfl rfl rfl rfl rfl rfl rfl rfl
  exact ⟨h.2.1, h.2.2⟩

/-- C10: in `size_by_user`, a `File`-kind record whose payload fails to
parse or whose size cannot be coerced to an i64 is silently skipped —
prepending it changes nothing, in particular it never causes an error —
and the only `none` outcome of the whole call is an i64 overflow of the
running sum. -/
theorem size_by_user_skip_spec (parse : String → Except Unit FileData)
    (s : Send) (rest : List Send) (hFile : s.atype = SendTypeFile)
    (hbad : ∀ d, parse s.data = .ok d → d.size.into_i64 = .error ()) :
    size_by_user parse (s :: rest) = size_by_user parse rest ∧
    (∀ sends, size_by_user parse sends = none ↔
      sumsInRange 0 (declaredSizes parse sends) = false) := by
  constructor
  · cases hp : parse s.data with
    | ok d =>
      have hcoerce := hbad d hp
      simp [size_by_user, size_by_user_go, hFile, hp, Except.bind, hcoerce]
    | error e =>
      simp [size_by_user, size_by_user_go, hFile, hp, Except.bind]
  · intro sends
    rw [size_by_user, size_by_user_go_eq_checkedSum, checkedSum_eq_ite]
    by_cases h : sumsInRange 0 (declaredSizes parse sends) <;> simp [h]

/-- Witness for C10: an unparseable `File`-kind payload (`"junk"` is
not in the parse table) is skipped, leaving the empty total. -/
theorem size_by_user_skip_spec_witness :
    size_by_user parseTable [fileSend "junk"] = size_by_user parseTable [] ∧
    size_by_user parseTable [fileSend "junk"] = some 0 := by
  have h := size_by_user_skip_spec parseTable (fileSend "junk") [] rfl
    (fun d hd => by simp [parseTable, fileSend, Send.new] at hd)
  exact ⟨h.1, h.1.trans rfl⟩

/-- A JSON value as produced by the `json!` literals in `send.rs`;
the parsed payload subtree is carried opaquely and dates keep their
numeric time point. -/
inductive JValue where
  | null
  | str (s : String)
  | int (n : Int)
  | payload (v : String)
  deriving DecidableEq

/-- `Send::creator_identifier` from `src/db/models/send.rs`:
`hide_email = some true` hides the identity; otherwise the owning
user's email is resolved through `findUser` (`User::find_by_uuid`),
`none` on a missing owner or failed resolution. -/
def Send.creator_identifier (findUser : String → Option String) (s : Send) :
    Option String :=
  match s.hide_email with
  | some true => none
  | _ =>
    match s.user_uuid with
    | some u =>
      match findUser u with
      | some email => some email
      | none => none
    | none => none

/-- `Send::to_json_access` from `src/db/models/send.rs` as an ordered
field list; `dataJson` abstracts the payload parse plus the
size-to-string normalization (`unwrap_or_default` makes it total). -/
def Send.to_json_access (dataJson : String → JValue)
    (findUser : String → Option String) (s : Send) : List (String × JValue) :=
  [("id", JValue.str s.uuid),
   ("type", JValue.int s.atype),
   ("name", JValue.str s.name),
   ("text", if s.atype = SendTypeText then dataJson s.data else JValue.null),
   ("file", if s.atype = SendTypeFile then dataJson s.data else JValue.null),
   ("expirationDate", match s.expiration_date with
     | some d => JValue.int d
     | none => JValue.null),
   ("creatorIdentifier", match s.creator_identifier findUser with
     | some e => JValue.str e
     | none => JValue.null),
   ("object", JValue.str "send-access")]

/-- C8 counterexample: on a concrete record the recipient view carries
the raw `id` field (the claim says it is omitted), and a hidden or
unresolved identity appears as an explicit `null` value rather than an
absent field. -/
theorem to_json_access_id_counterexample :
    (Send.to_json_access (fun _ => JValue.null) (fun _ => none)
        exampleSend).lookup "id" = some (JValue.str "id1") ∧
    (Send.to_json_access (fun _ => JValue.null) (fun _ => none)
        exampleSend).lookup "id" ≠ none ∧
    (Send.to_json_access (fun _ => JValue.null) (fun _ => none)
        exampleSend).lookup "creatorIdentifier" = some JValue.null := by
  decide

/-- C8 (amended): the recipient view omits the internal-only fields
max access count, disabled flag, access count, key and password hash —
but it does include the raw id; the owner's display identity is
included unless `hide_email` is set or resolution fails, in which case
the `creatorIdentifier` field carries an explicit `null` (the view is a
total function, never an error). -/
theorem to_json_access_spec (dataJson : String → JValue)
    (findUser : String → Option String) (s : Send) :
    (s.to_json_access dataJson findUser).lookup "maxAccessCount" = none ∧
    (s.to_json_access dataJson findUser).lookup "disabled" = none ∧
    (s.to_json_access dataJson findUser).lookup "accessCount" = none ∧
    (s.to_json_access dataJson findUser).lookup "key" = none ∧
    (s.to_json_access dataJson findUser).lookup "password" = none ∧
    (s.to_json_access dataJson findUser).lookup "id" = some (JValue.str s.uuid) ∧
    (s.hide_email = some true → s.creator_identifier findUser = none) ∧
    (∀ u, s.user_uuid = some u → findUser u = none →
      s.creator_identifier findUser = none) ∧
    (s.user_uuid = none → s.creator_identifier findUser = none) ∧
    (∀ u e, s.hide_email ≠ some true → s.user_uuid = some u → findUser u = some e →
      s.creator_identifier findUser = some e) ∧
    (∀ e, s.creator_identifier findUser = some e →
      (s.to_json_access dataJson findUser).lookup "creatorIdentifier" =
        some (JValue.str e)) ∧
    (s.creator_identifier findUser = none →
      (s.to_json_access dataJson findUser).lookup "creatorIdentifier" =
        some JValue.null) := by
  refine ⟨rfl, rfl, rfl, rfl, rfl, rfl, ?_, ?_, ?_, ?_, ?_, ?_⟩
  · intro h; simp [Send.creator_identifier, h]
  · intro u hu hf
    cases hh : s.hide_email with
    | none => simp [Send.creator_identifier, hh, hu, hf]
    | some b => cases b <;> simp [Send.creator_identifier, hh, hu, hf]
  · intro hu
    cases hh : s.hide_email with
    | none => simp [Send.creator_identifier, hh, hu]
    | some b => cases b <;> simp [Send.creator_identifier, hh, hu]
  · intro u e hh hu hf
    cases hh' : s.hide_email with
    | none => simp [Send.creator_identifier, hh', hu, hf]
    | some b =>
      cases b with
      | false => simp [Send.creator_identifier, hh', hu, hf]
      | true => exact absurd hh' hh
  · intro e he; simp [Send.to_json_access, he, List.lookup]
  · intro he; simp [Send.to_json_access, he, List.lookup]

/-- Witness for C8's amended theorem: a concrete record whose owner
resolves to an email. -/
theorem to_json_access_spec_witness :
    (Send.to_json_access (fun _ => JValue.null)
        (fun u => if u = "user1" then some "alice" else none)
        exampleSend).lookup "creatorIdentifier" = some (JValue.str "alice") ∧
    (Send.to_json_access (fun _ => JValue.null)
        (fun u => if u = "user1" then some "alice" else none)
        exampleSend).lookup "maxAccessCount" = none := by
  have h := to_json_access_spec (fun _ => JValue.null)
    (fun u => if u = "user1" then some "alice" else none) exampleSend
  refine ⟨h.2.2.2.2.2.2.2.2.2.2.1 "alice" ?_, h.1⟩
  exact h.2.2.2.2.2.2.2.2.2.1 "user1" "alice" (by decide) rfl rfl

/-- The URL-safe base64 alphabet value of a character, if any. -/
def b64urlCharValue (c : Char) : Option Nat :=
  if 'A' ≤ c ∧ c ≤ 'Z' then some (c.toNat - 65)
  else if 'a' ≤ c ∧ c ≤ 'z' then some (c.toNat - 97 + 26)
  else if '0' ≤ c ∧ c ≤ '9' then some (c.toNat - 48 + 52)
  else if c = '-' then some 62
  else if c = '_' then some 63
  else none

/-- Map every character through the alphabet, failing on any foreign
character. -/
def b64urlValues : List Char → Option (List Nat)
  | [] => some []
  | c :: cs =>
    match b64urlCharValue c, b64urlValues cs with
    | some v, some vs => some (v :: vs)
    | _, _ => none

/-- Big-endian accumulation of base-64 digits into a number. -/
def accBits (l : List Nat) : Nat := l.foldl (fun acc v => acc * 64 + v) 0

/-- Big-endian byte expansion of a number to a fixed width. -/
def natToBytes (n len : Nat) : List Nat :=
  (List.range len).map (fun i => n / 256 ^ (len - 1 - i) % 256)

/-- `data_encoding::BASE64URL_NOPAD.decode`: strict unpadded URL-safe
base64 — a foreign character, a symbol count ≡ 1 (mod 4), or nonzero
trailing bits is a decode error. -/
def b64urlNopadDecode (s : String) : Option (List Nat) :=
  match b64urlValues s.toList with
  | none => none
  | some vs =>
    if vs.length % 4 = 1 then none
    else
      let nbytes := 6 * vs.length / 8
      let pad := 6 * vs.length - 8 * nbytes
      let n := accBits vs
      if n % 2 ^ pad = 0 then some (natToBytes (n / 2 ^ pad) nbytes) else none

/-- `uuid::Uuid::from_slice`: succeeds exactly on 16 bytes. -/
def uuidFromSlice (bytes : List Nat) : Option (List Nat) :=
  if bytes.length = 16 then some bytes else none

/-- A lowercase hex digit. -/
def hexDigit (n : Nat) : Char :=
  if n < 10 then Char.ofNat (48 + n) else Char.ofNat (87 + n)

/-- The two lowercase hex digits of a byte. -/
def hexByte (b : Nat) : List Char := [hexDigit (b / 16 % 16), hexDigit (b % 16)]

/-- `uuid::Uuid::to_string`: hyphenated 8-4-4-4-12 lowercase hex. -/
def uuidToString (bytes : List Nat) : String :=
  let hx := (bytes.map hexByte).flatten
  String.mk (hx.take 8 ++ ['-'] ++ (hx.drop 8).take 4 ++ ['-'] ++
    (hx.drop 12).take 4 ++ ['-'] ++ (hx.drop 16).take 4 ++ ['-'] ++ hx.drop 20)

/-- `Send::find_by_uuid` from `src/db/models/send.rs`: the first record
in the store with that id. -/
def find_by_uuid (store : List Send) (uuid : String) : Option Send :=
  store.find? (fun s => s.uuid == uuid)

/-- `Send::find_by_access_id` from `src/db/models/send.rs`: decode the
unpadded URL-safe base64 access id, rebuild the canonical hyphenated id
through `Uuid::from_slice` and `to_string`, and look it up; every
decode or length failure yields `none`. -/
def find_by_access_id (store : List Send) (access_id : String) : Option Send :=
  match b64urlNopadDecode access_id with
  | none => none
  | some bytes =>
    match uuidFromSlice bytes with
    | none => none
    | some u => find_by_uuid store (uuidToString u)

/-- C9: `find_by_access_id` returns `none` on any base64 decode failure
and on any decoded length other than the 16 uuid bytes; on a successful
16-byte decode it performs the canonical-id lookup, whose hits come
from the store — so a malformed access id is indistinguishable from a
missing record, both being the same `none`. -/
theorem find_by_access_id_spec (store : List Send) (access_id : String) :
    (b64urlNopadDecode access_id = none → find_by_access_id store access_id = none) ∧
    (∀ bytes, b64urlNopadDecode access_id = some bytes → bytes.length ≠ 16 →
      find_by_access_id store access_id = none) ∧
    (∀ bytes, b64urlNopadDecode access_id = some bytes → bytes.length = 16 →
      find_by_access_id store access_id = find_by_uuid store (uuidToString bytes)) ∧
    (∀ s, find_by_access_id store access_id = some s → s ∈ store) := by
  refine ⟨?_, ?_, ?_, ?_⟩
  · intro h; simp [find_by_access_id, h]
  · intro bytes hb hlen
    simp [find_by_access_id, hb, uuidFromSlice, hlen]
  · intro bytes hb hlen
    simp [find_by_access_id, hb, uuidFromSlice, hlen]
  · intro s hs
    rcases hd : b64urlNopadDecode access_id with - | bytes
    · simp [find_by_access_id, hd] at hs
    · rcases hu : uuidFromSlice bytes with - | u
      · simp [find_by_access_id, hd, hu] at hs
      · simp [find_by_access_id, find_by_uuid, hd, hu] at hs
        exact List.mem_of_find?_eq_some hs

/-- Witness for C9: the invalid string "!" decodes to nothing and the
22-symbol access id of the all-zero uuid finds the record stored under
the hyphenated canonical id. -/
theorem find_by_access_id_spec_witness :
    find_by_access_id [exampleSend] "!" = none ∧
    find_by_access_id
        [Send.new "00000000-0000-0000-0000-000000000000" 0 0 "n" "d" "k" 1]
        "AAAAAAAAAAAAAAAAAAAAAA" =
      some (Send.new "00000000-0000-0000-0000-000000000000" 0 0 "n" "d" "k" 1) := by
  constructor
  · exact (find_by_access_id_spec [exampleSend] "!").1 (by decide)
  · have h := (find_by_access_id_spec
      [Send.new "00000000-0000-0000-0000-000000000000" 0 0 "n" "d" "k" 1]
      "AAAAAAAAAAAAAAAAAAAAAA").2.2.1 (List.replicate 16 0) (by decide) (by decide)
    rw [h]
    decide

end Vaultwarden
